import Mathlib

/-!
# Verification of the simple-shell command interpreter

A shallow embedding of the Rust sources `src/main.rs` and `src/shell.rs`
of the simple-shell repository, together with theorems settling the
specification's claims about the program.

Conventions of the embedding:
- Rust `String` / `&str` values are modelled as `List Char` (`RStr`).
- `CString` is a wrapper around the character list; `CString.new` fails
  (returns `none`) exactly when the list contains an interior null, as
  `std::ffi::CString::new` does.
- A Rust panic (an `unwrap` of a failing value) is modelled as the `none`
  case of an `Option`-valued result, or as the `panic` constructor of
  `BuiltinOutcome`.
- OS state consulted by the program (environment variables, `chdir`
  return values, the history file, `posix_spawnp` return value) is an
  explicit `OsEnv` record passed to the embedded functions.
-/

set_option autoImplicit false

abbrev RStr := List Char

/-- The Unicode White_Space property, the set of characters removed by
Rust's `str::trim` (via `char::is_whitespace`). -/
def isRustWhitespace (c : Char) : Bool :=
  let n := c.toNat
  (decide (0x09 ≤ n) && decide (n ≤ 0x0D)) || decide (n = 0x20) ||
    decide (n = 0x85) || decide (n = 0xA0) || decide (n = 0x1680) ||
    (decide (0x2000 ≤ n) && decide (n ≤ 0x200A)) || decide (n = 0x2028) ||
    decide (n = 0x2029) || decide (n = 0x202F) || decide (n = 0x205F) ||
    decide (n = 0x3000)

/-- Leading-whitespace removal, as in Rust's `str::trim_start`. -/
def trimStart (s : RStr) : RStr := s.dropWhile isRustWhitespace

/-- Trailing-whitespace removal, as in Rust's `str::trim_end`. -/
def trimEnd (s : RStr) : RStr := (s.reverse.dropWhile isRustWhitespace).reverse

/-- Rust's `str::trim`: whitespace removed from both ends. -/
def rustTrim (s : RStr) : RStr := trimEnd (trimStart s)

/-- Rust's `str::split` with the one-character pattern `sep`: every
occurrence of the separator ends a token, and the empty string yields the
single token `[]`. -/
def rustSplitChar (sep : Char) : RStr → List RStr
  | [] => [[]]
  | c :: s =>
    let rest := rustSplitChar sep s
    if c = sep then [] :: rest
    else
      match rest with
      | t :: ts => (c :: t) :: ts
      | [] => [[c]]

/-- `std::ffi::CString`: a null-terminated byte string, modelled by its
characters without the terminator. -/
structure CString where
  bytes : RStr
deriving DecidableEq

/-- `CString::new`: fails exactly when the input contains an interior
null byte. -/
def CString.new (s : RStr) : Option CString :=
  if Char.ofNat 0 ∈ s then none else some ⟨s⟩

/-- `tokens.map(CString::new(s).unwrap()).collect()`: the whole
collection succeeds, or the first failing `unwrap` panics (`none`). -/
def mapCString : List RStr → Option (List CString)
  | [] => some []
  | t :: ts =>
    match CString.new t, mapCString ts with
    | some c, some cs => some (c :: cs)
    | _, _ => none

/-- `Shell::cmd_parse` from `src/shell.rs`: trim the line, split on
single spaces, convert each token with `CString::new(..).unwrap()`, and
wrap the collected vector in `Ok`.  The `none` case is the panic of one
of the `unwrap` calls; no code path builds the `Err` variant. -/
def cmd_parse (line : RStr) : Option (Except RStr (List CString)) :=
  (mapCString (rustSplitChar ' ' (rustTrim line))).map Except.ok

/-- `Shell::trim_white` from `src/shell.rs`: `line.trim().to_string()`. -/
def trim_white (line : RStr) : RStr := rustTrim line

/-! ## Helper lemmas about trimming and splitting -/

theorem dropWhileIdem {α : Type} (p : α → Bool) (l : List α) :
    (l.dropWhile p).dropWhile p = l.dropWhile p := by
  induction l with
  | nil => rfl
  | cons c l ih =>
    cases hc : p c with
    | true => simp [List.dropWhile_cons, hc, ih]
    | false => simp [List.dropWhile_cons, hc]

theorem trimStartIdem (s : RStr) : trimStart (trimStart s) = trimStart s :=
  dropWhileIdem isRustWhitespace s

theorem trimEndIdem (s : RStr) : trimEnd (trimEnd s) = trimEnd s := by
  unfold trimEnd
  rw [List.reverse_reverse, dropWhileIdem]

theorem trimStartOfTrimEnd (s : RStr) (h : trimStart s = s) :
    trimStart (trimEnd s) = trimEnd s := by
  cases s with
  | nil => rfl
  | cons c t =>
    have hc : isRustWhitespace c = false := by
      by_contra hcc
      have hct : isRustWhitespace c = true := by
        cases hcv : isRustWhitespace c
        · exact absurd hcv hcc
        · rfl
      have hdrop : trimStart (c :: t) = trimStart t := by
        simp [trimStart, List.dropWhile_cons, hct]
      rw [h] at hdrop
      have hlen : (trimStart t).length ≤ t.length :=
        List.Sublist.length_le (List.dropWhile_sublist isRustWhitespace)
      rw [← hdrop] at hlen
      simp at hlen
    have hX : trimEnd (c :: t) =
        if (t.reverse.dropWhile isRustWhitespace).isEmpty then [c]
        else c :: (t.reverse.dropWhile isRustWhitespace).reverse := by
      show ((c :: t).reverse.dropWhile isRustWhitespace).reverse = _
      rw [List.reverse_cons, List.dropWhile_append]
      cases he : (t.reverse.dropWhile isRustWhitespace).isEmpty with
      | true => simp [he, List.dropWhile_cons, hc]
      | false => simp [he]
    rw [hX]
    cases he : (t.reverse.dropWhile isRustWhitespace).isEmpty with
    | true => simp [he, trimStart, List.dropWhile_cons, hc]
    | false => simp [he, trimStart, List.dropWhile_cons, hc]

/-- C9: whitespace trimming is idempotent — for every string `s`,
`trim_white (trim_white s) = trim_white s`. -/
theorem trim_white_idempotent (s : RStr) :
    trim_white (trim_white s) = trim_white s := by
  show rustTrim (rustTrim s) = rustTrim s
  unfold rustTrim
  rw [trimStartOfTrimEnd (trimStart s) (trimStartIdem s), trimEndIdem]

/-! ## Claims about `cmd_parse` -/

theorem splitCharNeNil (sep : Char) (s : RStr) : rustSplitChar sep s ≠ [] := by
  cases s with
  | nil => simp [rustSplitChar]
  | cons c t =>
    simp only [rustSplitChar]
    cases hrec : rustSplitChar sep t with
    | nil => split <;> simp
    | cons u us => split <;> simp

theorem memOfMemSplitChar (sep : Char) :
    ∀ (s t : RStr), t ∈ rustSplitChar sep s → ∀ c ∈ t, c ∈ s := by
  intro s
  induction s with
  | nil =>
    intro t ht c hc
    simp [rustSplitChar] at ht
    subst ht
    simp at hc
  | cons a s ih =>
    intro t ht c hc
    simp only [rustSplitChar] at ht
    by_cases ha : a = sep
    · rw [if_pos ha] at ht
      rcases List.mem_cons.mp ht with h0 | h0
      · subst h0; simp at hc
      · exact List.mem_cons_of_mem a (ih t h0 c hc)
    · rw [if_neg ha] at ht
      cases hrec : rustSplitChar sep s with
      | nil => exact absurd hrec (splitCharNeNil sep s)
      | cons u us =>
        rw [hrec] at ht
        rcases List.mem_cons.mp ht with h0 | h0
        · subst h0
          rcases List.mem_cons.mp hc with h1 | h1
          · subst h1; exact List.mem_cons_self c s
          · have hu : u ∈ rustSplitChar sep s := by
              rw [hrec]; exact List.mem_cons_self u us
            exact List.mem_cons_of_mem a (ih u hu c h1)
        · have hts : t ∈ rustSplitChar sep s := by
            rw [hrec]; exact List.mem_cons_of_mem u h0
          exact List.mem_cons_of_mem a (ih t hts c hc)

theorem memOfMemTrim (s : RStr) (c : Char) (h : c ∈ rustTrim s) : c ∈ s := by
  have h1 : c ∈ trimStart s := by
    have hsub : (trimStart s).reverse.dropWhile isRustWhitespace <:+
        (trimStart s).reverse := List.dropWhile_suffix isRustWhitespace
    have : c ∈ (trimStart s).reverse.dropWhile isRustWhitespace := by
      simpa [rustTrim, trimEnd] using h
    exact List.mem_reverse.mp (hsub.subset this)
  exact (List.dropWhile_sublist isRustWhitespace).subset h1

theorem mapCStringEqSome (ts : List RStr)
    (h : ∀ t ∈ ts, Char.ofNat 0 ∉ t) :
    mapCString ts = some (ts.map CString.mk) := by
  induction ts with
  | nil => rfl
  | cons t ts ih =>
    have h0 : Char.ofNat 0 ∉ t := h t (List.mem_cons_self t ts)
    have hrest := ih fun u hu => h u (List.mem_cons_of_mem t hu)
    simp [mapCString, CString.new, h0, hrest]

theorem dropWhileNilOfForall {α : Type} (p : α → Bool) :
    ∀ l : List α, (∀ c ∈ l, p c = true) → l.dropWhile p = [] := by
  intro l h
  induction l with
  | nil => rfl
  | cons a l ih =>
    simp [List.dropWhile_cons, h a (List.mem_cons_self a l),
      ih fun c hc => h c (List.mem_cons_of_mem a hc)]

/-- C6: for any line without embedded null bytes, `cmd_parse` returns
`Ok` of exactly the tokens obtained by trimming the line and splitting on
single spaces; a whitespace-only line yields the single empty token. -/
theorem cmd_parse_tokens (line : RStr) (h : Char.ofNat 0 ∉ line) :
    cmd_parse line =
      some (Except.ok ((rustSplitChar ' ' (rustTrim line)).map CString.mk)) ∧
    ((∀ c ∈ line, isRustWhitespace c = true) →
      cmd_parse line = some (Except.ok [CString.mk []])) := by
  have hts : ∀ t ∈ rustSplitChar ' ' (rustTrim line), Char.ofNat 0 ∉ t := by
    intro t ht hc
    exact h (memOfMemTrim line _ (memOfMemSplitChar ' ' _ t ht _ hc))
  constructor
  · simp [cmd_parse, mapCStringEqSome _ hts]
  · intro hws
    have htrim : rustTrim line = [] := by
      have : trimStart line = [] := dropWhileNilOfForall isRustWhitespace line hws
      simp [rustTrim, this, trimEnd]
    simp [cmd_parse, htrim, rustSplitChar, mapCString, CString.new]

/-- Witness for C6 at the whitespace-only line consisting of two spaces. -/
theorem cmd_parse_tokens_witness :
    (Char.ofNat 0 ∉ ([' ', ' '] : RStr)) ∧
    (cmd_parse [' ', ' '] =
      some (Except.ok
        ((rustSplitChar ' ' (rustTrim [' ', ' '])).map CString.mk)) ∧
     ((∀ c ∈ ([' ', ' '] : RStr), isRustWhitespace c = true) →
       cmd_parse [' ', ' '] = some (Except.ok [CString.mk []]))) :=
  ⟨by decide, cmd_parse_tokens [' ', ' '] (by decide)⟩

/-- C2: the code evaluated at a line with an embedded null byte — the
`unwrap` inside `cmd_parse` panics (modelled by `none`), so no `Err` is
ever produced, while a null-free line parses to `Ok`. -/
theorem cmd_parse_panics_on_null :
    cmd_parse ['a', Char.ofNat 0, 'b'] = none ∧
    cmd_parse ['a', ' ', 'b'] =
      some (Except.ok [CString.mk ['a'], CString.mk ['b']]) := by
  constructor <;> rfl

theorem mapCStringLength :
    ∀ (ts : List RStr) (l : List CString),
      mapCString ts = some l → l.length = ts.length := by
  intro ts
  induction ts with
  | nil => intro l h; simp [mapCString] at h; subst h; rfl
  | cons t ts ih =>
    intro l h
    simp only [mapCString] at h
    cases hc : CString.new t with
    | none => rw [hc] at h; exact absurd h (by simp)
    | some c =>
      rw [hc] at h
      cases hm : mapCString ts with
      | none => rw [hm] at h; exact absurd h (by simp)
      | some cs =>
        rw [hm] at h
        simp at h
        subst h
        simp [ih cs hm]

/-- C8: every successfully parsed command vector is non-empty, so taking
its first element in the dispatch loop cannot fail. -/
theorem cmd_parse_nonempty (line : RStr) (cmd : List CString)
    (h : cmd_parse line = some (Except.ok cmd)) : 0 < cmd.length := by
  unfold cmd_parse at h
  cases hm : mapCString (rustSplitChar ' ' (rustTrim line)) with
  | none => rw [hm] at h; exact absurd h (by simp)
  | some l =>
    rw [hm] at h
    simp at h
    subst h
    rw [mapCStringLength _ _ hm]
    cases hsc : rustSplitChar ' ' (rustTrim line) with
    | nil => exact absurd hsc (splitCharNeNil ' ' (rustTrim line))
    | cons t ts => simp

/-- Witness for C8 at the line consisting of the two characters `ls`. -/
theorem cmd_parse_nonempty_witness :
    0 < ([CString.mk ['l', 's']] : List CString).length :=
  cmd_parse_nonempty ['l', 's'] [CString.mk ['l', 's']] rfl

/-! ## OS environment, builtins and dispatch -/

/-- The OS state the program consults.  `errno` follows the spec's words
for the refinement comparison in C3: it is the error code the system
reports for a failing `chdir` call (e.g. ENOENT, EACCES); the source
never reads it, passing through `chdir`'s raw return value instead. -/
structure OsEnv where
  homeVar : Option RStr
  pwDir : RStr
  chdirRet : RStr → Int
  errno : Int
  spawnRet : Int
  historyContents : Option RStr

/-- `Shell::change_dir` from `src/shell.rs`.  First component: the
result, with `none` the panic of `CString::new(home_dir).unwrap` when
`HOME` holds a null byte; second component: the paths passed to the
`chdir` system call. -/
def change_dir (env : OsEnv) (dir : List CString) :
    Option (Except Int Unit) × List RStr :=
  if dir.length ≤ 1 then
    match env.homeVar with
    | some home_dir =>
      match CString.new home_dir with
      | some cstring =>
        let r := env.chdirRet cstring.bytes
        (some (if r = 0 then Except.ok () else Except.error r), [cstring.bytes])
      | none => (none, [])
    | none =>
      let r := env.chdirRet env.pwDir
      (some (if r = 0 then Except.ok () else Except.error r), [env.pwDir])
  else
    match dir[1]? with
    | some d =>
      let r := env.chdirRet d.bytes
      (some (if r = 0 then Except.ok () else Except.error r), [d.bytes])
    | none => (none, [])

/-- One decimal digit of Rust's integer parsing. -/
def digitVal (c : Char) : Option Nat :=
  if decide ('0' ≤ c) && decide (c ≤ '9') then some (c.toNat - '0'.toNat)
  else none

/-- The value of a non-empty all-digit string, `none` otherwise. -/
def digitsVal (s : RStr) : Option Nat :=
  match s with
  | [] => none
  | _ :: _ =>
    s.foldl
      (fun acc c =>
        match acc, digitVal c with
        | some a, some d => some (a * 10 + d)
        | _, _ => none)
      (some 0)

/-- Rust's `str::parse::<i32>`: optional sign, at least one digit, and a
range check against the i32 bounds. -/
def parse_i32 (s : RStr) : Option Int :=
  match s with
  | '+' :: rest =>
    match digitsVal rest with
    | some m => if m ≤ 2147483647 then some (m : Int) else none
    | none => none
  | '-' :: rest =>
    match digitsVal rest with
    | some m => if m ≤ 2147483648 then some (-(m : Int)) else none
    | none => none
  | _ =>
    match digitsVal s with
    | some m => if m ≤ 2147483647 then some (m : Int) else none
    | none => none

/-- The history branch of `do_builtin`: the contents after the prefix
strip, `none` when `char_indices().nth(4).unwrap()` panics, which
happens exactly on non-empty contents of fewer than five characters. -/
def historyAfterStrip (contents : RStr) : Option RStr :=
  if contents.isEmpty then some contents
  else if 5 ≤ contents.length then some (contents.drop 4)
  else none

/-- How an invocation of `do_builtin` ends: a returned `Result`, a
`std::process::exit` with the given code, or a panic. -/
inductive BuiltinOutcome where
  | ret (r : Except Int Unit)
  | exited (code : Int)
  | panic

/-- The side effects an invocation of `do_builtin` performed: the paths
passed to `chdir`, and the lines printed to standard output. -/
structure BuiltinEffects where
  chdirCalls : List RStr
  printed : List RStr

/-- `Shell::do_builtin` from `src/shell.rs`: empty vectors give
`Err(0)`; `exit`, `cd` and `history` are handled in process; any other
name gives `Err(-1)`. -/
def do_builtin (env : OsEnv) (argv : List CString) :
    BuiltinOutcome × BuiltinEffects :=
  match argv with
  | [] => (BuiltinOutcome.ret (Except.error 0), ⟨[], []⟩)
  | c0 :: rest =>
    if c0.bytes = "exit".toList then
      match rest with
      | a1 :: _ =>
        (match parse_i32 a1.bytes with
         | some code => (BuiltinOutcome.exited code, ⟨[], []⟩)
         | none => (BuiltinOutcome.panic, ⟨[], []⟩))
      | [] => (BuiltinOutcome.exited 0, ⟨[], []⟩)
    else if c0.bytes = "cd".toList then
      (match change_dir env (c0 :: rest) with
       | (some r, calls) => (BuiltinOutcome.ret r, ⟨calls, []⟩)
       | (none, calls) => (BuiltinOutcome.panic, ⟨calls, []⟩))
    else if c0.bytes = "history".toList then
      (match historyAfterStrip (env.historyContents.getD []) with
       | some out => (BuiltinOutcome.ret (Except.ok ()), ⟨[], [out]⟩)
       | none => (BuiltinOutcome.panic, ⟨[], []⟩))
    else
      (BuiltinOutcome.ret (Except.error (-1)), ⟨[], []⟩)

/-- The observable system calls performed by the dispatch step of
`main`'s read loop in `src/main.rs`. -/
inductive Event where
  | spawnCall (prog : RStr)
  | setpgidCall (pid : Int) (pgid : Int)
  | tcsetpgrpCall (pgrp : Int)
  | waitpidCall (pid : Int)
  | builtinRun
  | exitProcess (code : Int)
deriving DecidableEq

def isSpawnEvent : Event → Bool
  | Event.spawnCall _ => true
  | _ => false

def isWaitEvent : Event → Bool
  | Event.waitpidCall _ => true
  | _ => false

/-- A `tcsetpgrp` call whose target group is a real (positive) process
group id; the shell's own group id, `getpid()`, is always positive. -/
def isFgToPositive : Event → Bool
  | Event.tcsetpgrpCall p => decide (0 < p)
  | _ => false

/-- The builtin name list of `main` in `src/main.rs`. -/
def builtin_cmds : List RStr := ["cd".toList, "exit".toList, "history".toList]

/-- The dispatch step of `main`'s loop in `src/main.rs`, as the list of
events it performs on a parsed command.  In the external branch the
program passes a null pointer for the child pid out-parameter (the local
`child_pid` keeps its default value 0), so the `setpgid` and `tcsetpgrp`
calls after a successful spawn receive 0, and no `waitpid` call occurs
anywhere.  `none` is the panic of `cmd.first().unwrap()` on an empty
vector. -/
def dispatch (env : OsEnv) (cmd : List CString) : Option (List Event) :=
  match cmd with
  | [] => none
  | c0 :: _ =>
    if c0.bytes ∈ builtin_cmds then
      some [Event.builtinRun]
    else
      if env.spawnRet = 0 then
        some [Event.spawnCall c0.bytes, Event.setpgidCall 0 0,
          Event.tcsetpgrpCall 0]
      else
        some [Event.spawnCall c0.bytes, Event.exitProcess 1]

/-- A benign concrete environment used by the witnesses. -/
def defaultEnv : OsEnv :=
  ⟨some "/home/user".toList, "/home/user".toList, fun _ => 0, 0, 0, none⟩

/-- An environment in which every `chdir` call fails: `chdir` returns
-1 and the system reports errno 2 (ENOENT, nonexistent directory). -/
def c3Env : OsEnv :=
  ⟨some "/home/user".toList, "/home/user".toList, fun _ => -1, 2, 0, none⟩

/-- An environment whose history file holds the three characters `abc`:
non-empty content shorter than the four-character version marker. -/
def c4Env : OsEnv :=
  ⟨some "/home/user".toList, "/home/user".toList, fun _ => 0, 0, 0,
    some ['a', 'b', 'c']⟩

/-- An environment whose history file holds a version marker followed by
one recorded line. -/
def historyOkEnv : OsEnv :=
  ⟨some "/home/user".toList, "/home/user".toList, fun _ => 0, 0, 0,
    some "#V2\nls\n".toList⟩

/-! ## C10: the empty-vector branch of `do_builtin` -/

/-- C10: on an empty argument vector `do_builtin` returns `Err(0)` with
no side effects and without terminating the process, and this value is
distinguishable from the `Err(-1)` returned for a non-builtin name. -/
theorem do_builtin_empty_err_zero (env : OsEnv) :
    do_builtin env [] = (BuiltinOutcome.ret (Except.error 0), ⟨[], []⟩) ∧
    ∀ (c0 : CString) (rest : List CString), c0.bytes ∉ builtin_cmds →
      (do_builtin env (c0 :: rest)).1 = BuiltinOutcome.ret (Except.error (-1)) ∧
      (0 : Int) ≠ -1 := by
  refine ⟨rfl, ?_⟩
  intro c0 rest h
  simp only [builtin_cmds, List.mem_cons, List.not_mem_nil, or_false,
    not_or] at h
  obtain ⟨hcd, hexit, hhist⟩ := h
  refine ⟨?_, by decide⟩
  simp only [do_builtin]
  rw [if_neg hexit, if_neg hcd, if_neg hhist]

/-- Witness for C10 at the concrete environment and the vector `[ls]`. -/
theorem do_builtin_empty_err_zero_witness :
    do_builtin defaultEnv [] =
      (BuiltinOutcome.ret (Except.error 0), ⟨[], []⟩) ∧
    ((do_builtin defaultEnv [CString.mk "ls".toList]).1 =
      BuiltinOutcome.ret (Except.error (-1)) ∧ (0 : Int) ≠ -1) :=
  ⟨(do_builtin_empty_err_zero defaultEnv).1,
    (do_builtin_empty_err_zero defaultEnv).2 (CString.mk "ls".toList) []
      (by decide)⟩

/-! ## C5: the exit builtin -/

/-- C5: `exit` with a second argument that parses as the integer `n`
ends the process with code `n`, and bare `exit` ends it with code 0; the
`exited` outcome never returns a `Result` to the caller. -/
theorem do_builtin_exit_code (env : OsEnv) (s : RStr) (n : Int)
    (rest : List CString) (h : parse_i32 s = some n) :
    (do_builtin env (CString.mk "exit".toList :: CString.mk s :: rest)).1 =
      BuiltinOutcome.exited n ∧
    (do_builtin env [CString.mk "exit".toList]).1 = BuiltinOutcome.exited 0 := by
  constructor
  · have hred :
        do_builtin env (CString.mk "exit".toList :: CString.mk s :: rest) =
          (match parse_i32 s with
           | some code => (BuiltinOutcome.exited code, ⟨[], []⟩)
           | none => (BuiltinOutcome.panic, ⟨[], []⟩)) := rfl
    rw [hred, h]
  · rfl

/-- Witness for C5: `exit 7` exits with code 7 and bare `exit` with 0. -/
theorem do_builtin_exit_code_witness :
    parse_i32 ['7'] = some 7 ∧
    ((do_builtin defaultEnv
        [CString.mk "exit".toList, CString.mk ['7']]).1 =
      BuiltinOutcome.exited 7 ∧
     (do_builtin defaultEnv [CString.mk "exit".toList]).1 =
      BuiltinOutcome.exited 0) :=
  ⟨by decide, do_builtin_exit_code defaultEnv ['7'] 7 [] (by decide)⟩

/-! ## C4: the history builtin -/

/-- C4 as claimed is false: on the non-empty three-character content
`abc` — shorter than the four-character version marker — the `unwrap`
of `char_indices().nth(4)` panics instead of returning `Ok(())`. -/
theorem do_builtin_history_short_panics :
    (do_builtin c4Env [CString.mk "history".toList]).1 =
      BuiltinOutcome.panic ∧
    c4Env.historyContents = some ['a', 'b', 'c'] ∧
    (BuiltinOutcome.panic = BuiltinOutcome.ret (Except.ok ()) → False) :=
  ⟨rfl, rfl, fun h => BuiltinOutcome.noConfusion h⟩

/-- C4 (amended): whenever the history content is empty or at least five
characters long, the builtin strips the first four characters, prints the
remainder, and returns `Ok(())`; a read failure contributes the empty
content.  Non-empty contents of at most four characters instead panic. -/
theorem do_builtin_history_total (env : OsEnv)
    (h : env.historyContents.getD [] = [] ∨
      5 ≤ (env.historyContents.getD []).length) :
    do_builtin env [CString.mk "history".toList] =
      (BuiltinOutcome.ret (Except.ok ()),
        ⟨[], [(env.historyContents.getD []).drop 4]⟩) := by
  have hred : do_builtin env [CString.mk "history".toList] =
      (match historyAfterStrip (env.historyContents.getD []) with
       | some out => (BuiltinOutcome.ret (Except.ok ()), ⟨[], [out]⟩)
       | none => (BuiltinOutcome.panic, ⟨[], []⟩)) := rfl
  rw [hred]
  rcases h with h | h
  · rw [h]; rfl
  · have hne : (env.historyContents.getD []).isEmpty = false := by
      cases hc : env.historyContents.getD [] with
      | nil => rw [hc] at h; simp at h
      | cons a l => rfl
    simp [historyAfterStrip, hne, h]

/-- Witness for C4 (amended) at a marker followed by one line. -/
theorem do_builtin_history_total_witness :
    (historyOkEnv.historyContents.getD [] = [] ∨
      5 ≤ (historyOkEnv.historyContents.getD []).length) ∧
    do_builtin historyOkEnv [CString.mk "history".toList] =
      (BuiltinOutcome.ret (Except.ok ()),
        ⟨[], [(historyOkEnv.historyContents.getD []).drop 4]⟩) :=
  ⟨Or.inr (by decide), do_builtin_history_total historyOkEnv (Or.inr (by decide))⟩

/-! ## C3: the cd builtin -/

/-- C3 as claimed is false: in an environment where `chdir` fails on a
nonexistent directory with errno 2, `change_dir` returns `Err(-1)` — the
raw `chdir` return value — and not `Err` of the system error code. -/
theorem change_dir_error_is_not_errno :
    (change_dir c3Env
      [CString.mk "cd".toList, CString.mk "/nope".toList]).1 =
      some (Except.error (-1)) ∧
    c3Env.errno = 2 ∧
    ((-1 : Int) = c3Env.errno → False) :=
  ⟨rfl, rfl, fun h => by simp [c3Env] at h⟩

/-- C3 (amended): whenever `change_dir` does not panic it performs
exactly one `chdir` call and returns `Ok(())` if that call returned 0,
else `Err` of the raw `chdir` return value. -/
theorem change_dir_home_eval (env : OsEnv) (dir : List CString)
    (hlen : dir.length ≤ 1) (home_dir : RStr)
    (hhome : env.homeVar = some home_dir) (cs : CString)
    (hcs : CString.new home_dir = some cs) :
    change_dir env dir =
      (some (if env.chdirRet cs.bytes = 0 then Except.ok ()
        else Except.error (env.chdirRet cs.bytes)), [cs.bytes]) := by
  simp [change_dir, hlen, hhome, hcs]

theorem change_dir_pw_eval (env : OsEnv) (dir : List CString)
    (hlen : dir.length ≤ 1) (hhome : env.homeVar = none) :
    change_dir env dir =
      (some (if env.chdirRet env.pwDir = 0 then Except.ok ()
        else Except.error (env.chdirRet env.pwDir)), [env.pwDir]) := by
  simp [change_dir, hlen, hhome]

theorem change_dir_arg_eval (env : OsEnv) (dir : List CString)
    (d : CString) (hlen : ¬dir.length ≤ 1) (hd : dir[1]? = some d) :
    change_dir env dir =
      (some (if env.chdirRet d.bytes = 0 then Except.ok ()
        else Except.error (env.chdirRet d.bytes)), [d.bytes]) := by
  simp [change_dir, hlen, hd]

theorem change_dir_result (env : OsEnv) (dir : List CString)
    (h : (change_dir env dir).1.isSome = true) :
    ∃ target : RStr,
      (change_dir env dir).2 = [target] ∧
      (change_dir env dir).1 =
        some (if env.chdirRet target = 0 then Except.ok ()
          else Except.error (env.chdirRet target)) := by
  by_cases hlen : dir.length ≤ 1
  · cases hhome : env.homeVar with
    | some home_dir =>
      cases hcs : CString.new home_dir with
      | some cstring =>
        have he := change_dir_home_eval env dir hlen home_dir hhome cstring hcs
        exact ⟨cstring.bytes, by rw [he], by rw [he]⟩
      | none =>
        have he : change_dir env dir = (none, []) := by
          simp [change_dir, hlen, hhome, hcs]
        rw [he] at h
        simp at h
    | none =>
      have he := change_dir_pw_eval env dir hlen hhome
      exact ⟨env.pwDir, by rw [he], by rw [he]⟩
  · cases hd : dir[1]? with
    | some d =>
      have he := change_dir_arg_eval env dir d hlen hd
      exact ⟨d.bytes, by rw [he], by rw [he]⟩
    | none =>
      have he : change_dir env dir = (none, []) := by
        simp [change_dir, hlen, hd]
      rw [he] at h
      simp at h

/-- Witness for C3 (amended) in the failing environment. -/
theorem change_dir_result_witness :
    ((change_dir c3Env
        [CString.mk "cd".toList, CString.mk "/nope".toList]).1.isSome
      = true) ∧
    ∃ target : RStr,
      (change_dir c3Env
        [CString.mk "cd".toList, CString.mk "/nope".toList]).2 = [target] ∧
      (change_dir c3Env
        [CString.mk "cd".toList, CString.mk "/nope".toList]).1 =
        some (if c3Env.chdirRet target = 0 then Except.ok ()
          else Except.error (c3Env.chdirRet target)) :=
  ⟨rfl, change_dir_result c3Env
    [CString.mk "cd".toList, CString.mk "/nope".toList] rfl⟩

/-! ## C7: builtin exclusivity of the dispatch loop -/

/-- C7: dispatching a command named `cd`, `exit` or `history` performs
no spawn call; dispatching any other name performs exactly one spawn
attempt, and `do_builtin` on such a vector signals not-a-builtin with
`Err(-1)`. -/
theorem dispatch_builtin_exclusivity (env : OsEnv) (cmd : List CString)
    (c0 : CString) (h : cmd.head? = some c0) :
    (c0.bytes ∈ builtin_cmds →
      ∃ evs, dispatch env cmd = some evs ∧
        List.countP isSpawnEvent evs = 0) ∧
    (c0.bytes ∉ builtin_cmds →
      (∃ evs, dispatch env cmd = some evs ∧
        List.countP isSpawnEvent evs = 1) ∧
      (do_builtin env cmd).1 = BuiltinOutcome.ret (Except.error (-1))) := by
  cases cmd with
  | nil => simp at h
  | cons a rest =>
    have ha : a = c0 := by simpa using h
    subst ha
    constructor
    · intro hb
      exact ⟨[Event.builtinRun], by simp [dispatch, hb], rfl⟩
    · intro hb
      constructor
      · by_cases hs : env.spawnRet = 0
        · refine ⟨[Event.spawnCall a.bytes, Event.setpgidCall 0 0,
            Event.tcsetpgrpCall 0], ?_, rfl⟩
          simp [dispatch, hb, hs]
        · refine ⟨[Event.spawnCall a.bytes, Event.exitProcess 1], ?_, rfl⟩
          simp [dispatch, hb, hs]
      · simp only [builtin_cmds, List.mem_cons, List.not_mem_nil, or_false,
          not_or] at hb
        obtain ⟨hcd, hexit, hhist⟩ := hb
        simp only [do_builtin]
        rw [if_neg hexit, if_neg hcd, if_neg hhist]

/-- Witness for C7 at the builtin `cd` and the external name `ls`. -/
theorem dispatch_builtin_exclusivity_witness :
    (∃ evs, dispatch defaultEnv [CString.mk "cd".toList] = some evs ∧
      List.countP isSpawnEvent evs = 0) ∧
    ((∃ evs, dispatch defaultEnv [CString.mk "ls".toList] = some evs ∧
      List.countP isSpawnEvent evs = 1) ∧
     (do_builtin defaultEnv [CString.mk "ls".toList]).1 =
      BuiltinOutcome.ret (Except.error (-1))) :=
  ⟨(dispatch_builtin_exclusivity defaultEnv [CString.mk "cd".toList]
      (CString.mk "cd".toList) rfl).1 (by decide),
   (dispatch_builtin_exclusivity defaultEnv [CString.mk "ls".toList]
      (CString.mk "ls".toList) rfl).2 (by decide)⟩

/-! ## C1: the terminal round-trip of the external path -/

/-- C1: the external-command path evaluated at the command `ls` — after
a successful spawn the code calls `setpgid(0, 0)` and
`tcsetpgrp(terminal, 0)` (the pid out-parameter was a null pointer, so
the local `child_pid` keeps its default 0) and returns to the loop.  The
event trace contains no `waitpid` call and no `tcsetpgrp` call whose
target is a real positive process group, so the foreground group is
never set back to the shell's own group after any wait. -/
theorem dispatch_external_never_waits :
    dispatch defaultEnv [CString.mk "ls".toList] =
      some [Event.spawnCall "ls".toList, Event.setpgidCall 0 0,
        Event.tcsetpgrpCall 0] ∧
    List.countP isWaitEvent
      [Event.spawnCall "ls".toList, Event.setpgidCall 0 0,
        Event.tcsetpgrpCall 0] = 0 ∧
    List.countP isFgToPositive
      [Event.spawnCall "ls".toList, Event.setpgidCall 0 0,
        Event.tcsetpgrpCall 0] = 0 :=
  ⟨rfl, rfl, rfl⟩
